import Mathlib

/-!
Verification development for the wedding-invite-app WhatsApp session layer
(src/server/services/whatsapp.js, src/server/routes/admin.js).

The source repository ships two revisions of the service file in one blob;
definitions below say which revision (v1 = the first copy, v2 = the second,
extended copy) a function models.  JavaScript strings are modelled as
`List Char` (with `String` wrappers where convenient), JS `Map` as an
association list with JS `Map.set`, `Map.get`, `Map.delete` semantics, and
JS truthiness of nullable strings via `optStrTruthy` (both `null` and the
empty string are falsy).  Thrown JS exceptions are modelled by `JsResult`
or by `Option`, and wall-clock time by the number of elapsed sleep
intervals.
-/

set_option maxHeartbeats 1000000
set_option linter.unusedVariables false

namespace WeddingInvite

/-! ## Phone normalizer (formatPhoneNumber, whatsapp.js lines 287-306) -/

/-- Characters kept by the cleaning step of formatPhoneNumber: the regex
replace deletes every character that is neither a digit nor a plus sign. -/
def keepPhoneChar (c : Char) : Bool := c.isDigit || c == '+'

/-- Cleaning step of formatPhoneNumber: keep digits and plus signs only. -/
def cleanPhone (p : List Char) : List Char := p.filter keepPhoneChar

/-- The fixed Israel country code used by formatPhoneNumber. -/
def code972 : List Char := ['9', '7', '2']

/-- Boolean startsWith on char lists, modelling String.startsWith. -/
def startsWithL : List Char → List Char → Bool
  | _, [] => true
  | [], _ :: _ => false
  | a :: s, b :: t => a == b && startsWithL s t

/-- The regional rewrite chain of formatPhoneNumber: a leading 0 is replaced
by 972; a leading +972 loses the plus; a bare 9 digit number with no prefix
gains 972; anything else is left alone. -/
def rewriteRegion (c : List Char) : List Char :=
  if startsWithL c ['0'] then code972 ++ c.tail
  else if startsWithL c ('+' :: code972) then c.tail
  else if !startsWithL c code972 && c.length == 9 then code972 ++ c
  else c

/-- Final step of formatPhoneNumber: drop a single leading plus sign. -/
def stripLeadPlus (l : List Char) : List Char :=
  match l with
  | a :: t => if a == '+' then t else a :: t
  | [] => []

/-- formatPhoneNumber from whatsapp.js: clean, apply the regional rewrites,
then drop a single leading plus. -/
def formatPhoneNumber (p : List Char) : List Char :=
  stripLeadPlus (rewriteRegion (cleanPhone p))

/-- formatPhoneNumber on Lean strings. -/
def formatPhoneNumberS (s : String) : String :=
  String.mk (formatPhoneNumber s.data)

/-! ## Substring search (models JS String.prototype.includes) -/

/-- Whether the pattern occurs as a contiguous substring of the haystack. -/
def containsSub : List Char → List Char → Bool
  | [], p => p.isEmpty
  | a :: t, p => startsWithL (a :: t) p || containsSub t p

/-- String.includes on Lean strings. -/
def strIncludes (s pat : String) : Bool := containsSub s.data pat.data

/-! ## Session store state (whatsappClients / clientStatus maps) -/

/-- JS truthiness of a nullable string: null and the empty string are falsy. -/
def optStrTruthy : Option String → Bool
  | none => false
  | some s => !(s == "")

/-- The wid field of client.info (an object; truthy iff present). -/
structure ClientInfo where
  wid : Option String
deriving DecidableEq

/-- A whatsapp-web.js Client handle.  `cid` is the construction index (each
`new Client(...)` consumes a fresh one), `info` is null until authentication
completes. -/
structure Client where
  cid : Nat
  info : Option ClientInfo
deriving DecidableEq

/-- One clientStatus entry: { isReady, qrCode, qrCodeResolve }.  The pending
waiter callback qrCodeResolve is modelled by whether it is set. -/
structure Status where
  isReady : Bool
  qrCode : Option String
  qrCodeResolve : Bool
deriving DecidableEq

/-- The module-level state of whatsapp.js: the two sender-keyed maps plus a
counter of Client constructions (used to observe connection spawning). -/
structure WAState where
  whatsappClients : List (String × Client)
  clientStatus : List (String × Status)
  nextCid : Nat
deriving DecidableEq

/-- Map.get: first value stored at the key. -/
def getA {α : Type} : List (String × α) → String → Option α
  | [], _ => none
  | p :: t, k => if p.1 == k then some p.2 else getA t k

/-- Map.set: overwrite the existing entry in place, else append. -/
def setA {α : Type} : List (String × α) → String → α → List (String × α)
  | [], k, v => [(k, v)]
  | p :: t, k, v => if p.1 == k then (k, v) :: t else p :: setA t k v

/-- Map.delete: remove the entry stored at the key. -/
def delA {α : Type} (l : List (String × α)) (k : String) : List (String × α) :=
  l.filter (fun p => !(p.1 == k))

/-- The status object freshly created at the start of an open call:
{ isReady: false, qrCodeResolve: null, qrCode: null }. -/
def freshStatus : Status := ⟨false, none, false⟩

/-- Truthiness of client.info && client.info.wid. -/
def clientHasWid (c : Client) : Bool :=
  match c.info with
  | some i => i.wid.isSome
  | none => false

/-- The already-ready fast path shared by both revisions of
initializeWhatsApp and by waitForReady: status && status.isReady && client
&& client.info && client.info.wid. -/
def existingReady (st : WAState) (sender : String) : Bool :=
  match getA st.whatsappClients sender with
  | none => false
  | some c =>
    (match getA st.clientStatus sender with
     | some s => s.isReady
     | none => false) && clientHasWid c

/-- status && status.qrCode for a sender (v2 existing-QR branch guard). -/
def pendingQR (st : WAState) (sender : String) : Bool :=
  match getA st.clientStatus sender with
  | some s => optStrTruthy s.qrCode
  | none => false

/-- The status reset performed at the start of the open promise body: reuse
the stored status with isReady set to false (keeping any QR code), or create
a fresh one, and store it back. -/
def statusResetForOpen (st : WAState) (sender : String) : WAState :=
  let s := (getA st.clientStatus sender).getD freshStatus
  let cs := setA st.clientStatus sender ⟨false, s.qrCode, s.qrCodeResolve⟩
  { st with clientStatus := cs }

/-- new Client(...) followed by whatsappClients.set: a fresh handle with no
info yet replaces whatever was stored for the sender. -/
def constructClient (st : WAState) (sender : String) : WAState :=
  { st with
    whatsappClients := setA st.whatsappClients sender ⟨st.nextCid, none⟩,
    nextCid := st.nextCid + 1 }

/-- What an open call does with an existing session. -/
inductive InitAction where
  | alreadyReady
  | attachExisting
  | construct
deriving DecidableEq

/-- initializeWhatsApp, first revision (v1, lines 17-58): if a ready client
exists it is returned; otherwise the code only logs when a QR code is
pending (the comment says it returns the existing client promise, but no
return statement follows) and falls through to the promise body, which
resets the status and constructs a new Client. -/
def initWhatsAppV1 (st : WAState) (sender : String) : WAState × InitAction :=
  match getA st.whatsappClients sender with
  | some _ =>
    if existingReady st sender then (st, .alreadyReady)
    else
      -- the `status && status.qrCode` branch only logs and falls through
      (constructClient (statusResetForOpen st sender) sender, .construct)
  | none => (constructClient (statusResetForOpen st sender) sender, .construct)

/-- initializeWhatsApp, second revision (v2, lines 501-579): ready clients
are returned; a non-ready client with a pending QR code is attached to (the
promise resolves off the existing client, nothing new is constructed); a
non-ready client without a QR code is destroyed (teardown errors swallowed)
and both map entries removed before a new Client is constructed. -/
def initWhatsAppV2 (st : WAState) (sender : String) : WAState × InitAction :=
  match getA st.whatsappClients sender with
  | some _ =>
    if existingReady st sender then (st, .alreadyReady)
    else if pendingQR st sender then (st, .attachExisting)
    else
      let st1 : WAState :=
        { st with
          whatsappClients := delA st.whatsappClients sender,
          clientStatus := delA st.clientStatus sender }
      (constructClient (statusResetForOpen st1 sender) sender, .construct)
  | none => (constructClient (statusResetForOpen st sender) sender, .construct)

/-- The qr event handler (both revisions): store the QR code, force isReady
to false, store the status back, and fire-and-clear any pending waiter. -/
def qrEventStep (st : WAState) (sender q : String) : WAState :=
  let s := (getA st.clientStatus sender).getD freshStatus
  let cs := setA st.clientStatus sender
    ⟨false, some q, if s.qrCodeResolve then false else s.qrCodeResolve⟩
  { st with clientStatus := cs }

/-- The ready event handler (both revisions): mark the session ready and
clear the QR code and pending waiter from memory (both the existing-status
and the fresh-status branch store exactly this). -/
def readyEventStep (st : WAState) (sender : String) : WAState :=
  { st with clientStatus := setA st.clientStatus sender ⟨true, none, false⟩ }

/-- The disconnected event handler (both revisions): clear the status fields
and delete both map entries. -/
def disconnectedStep (st : WAState) (sender : String) : WAState :=
  { st with
    whatsappClients := delA st.whatsappClients sender,
    clientStatus := delA st.clientStatus sender }

/-- Per-entry action of cleanupOldQRCodes: a ready session with a (truthy)
stored QR code has the code and the pending waiter cleared. -/
def sweepStatus (s : Status) : Status :=
  if s.isReady && optStrTruthy s.qrCode then ⟨s.isReady, none, false⟩ else s

/-- cleanupOldQRCodes (whatsapp.js lines 259-279): sweep every status entry
with `sweepStatus`; returns the new state and the cleaned count. -/
def cleanupOldQRCodes (st : WAState) : WAState × Nat :=
  ({ st with clientStatus := st.clientStatus.map (fun q => (q.1, sweepStatus q.2)) },
   (st.clientStatus.filter (fun q => q.2.isReady && optStrTruthy q.2.qrCode)).length)

/-- Reap condition of cleanupInactiveClients (v2, lines 1012-1049): the
client has no info and either no status is stored or the status is neither
ready nor holds a truthy QR code. -/
def inactiveCond (st : WAState) (sender : String) (c : Client) : Bool :=
  c.info.isNone &&
    (match getA st.clientStatus sender with
     | none => true
     | some s => !s.isReady && !optStrTruthy s.qrCode)

/-- cleanupInactiveClients (v2, lines 1012-1049): destroy (teardown errors
swallowed) and remove every client satisfying `inactiveCond`, deleting both
map entries; returns the new state and the cleaned count. -/
def cleanupInactiveClients (st : WAState) : WAState × Nat :=
  ({ st with
     whatsappClients := st.whatsappClients.filter (fun p => !inactiveCond st p.1 p.2),
     clientStatus := st.clientStatus.filter (fun q =>
       match getA st.whatsappClients q.1 with
       | some c => !inactiveCond st q.1 c
       | none => true) },
   (st.whatsappClients.filter (fun p => inactiveCond st p.1 p.2)).length)

/-- The state transitions of a session: the QR, ready and disconnected
events, the synchronous part of either revision of open, and the two
periodic reaper sweeps (app.js registers them on 5 and 15 minute timers). -/
inductive WEvent where
  | qrIssued (sender q : String)
  | readyEv (sender : String)
  | disconnectedEv (sender : String)
  | openV1 (sender : String)
  | openV2 (sender : String)
  | sweepQR
  | sweepInactive

/-- One state transition. -/
def step (st : WAState) : WEvent → WAState
  | .qrIssued sender q => qrEventStep st sender q
  | .readyEv sender => readyEventStep st sender
  | .disconnectedEv sender => disconnectedStep st sender
  | .openV1 sender => (initWhatsAppV1 st sender).1
  | .openV2 sender => (initWhatsAppV2 st sender).1
  | .sweepQR => (cleanupOldQRCodes st).1
  | .sweepInactive => (cleanupInactiveClients st).1

/-- The empty initial state of the module (both maps empty). -/
def initState : WAState := ⟨[], [], 0⟩

/-- Run a trace of transitions from the initial state. -/
def run (evs : List WEvent) : WAState := evs.foldl step initState

/-- One status entry respects the readiness/QR exclusion: if it is marked
ready its stored QR code is null. -/
def statusOK (q : String × Status) : Bool :=
  !q.2.isReady || q.2.qrCode.isNone

/-- The store-wide invariant: every stored status respects `statusOK`. -/
def InvB (st : WAState) : Bool := st.clientStatus.all statusOK

/-! ## Pure reads (getStatus / getQRCode) -/

/-- The public status view: { ready, qrCode }. -/
structure StatusView where
  ready : Bool
  qrCode : Option String
deriving DecidableEq

/-- getStatus: `status?.isReady || false` and `status?.qrCode || null`
(JS truthiness coerces an empty stored string to null). -/
def getStatus (st : WAState) (sender : String) : StatusView :=
  match getA st.clientStatus sender with
  | none => ⟨false, none⟩
  | some s => ⟨s.isReady, if optStrTruthy s.qrCode then s.qrCode else none⟩

/-- getQRCode: `status?.qrCode || null`. -/
def getQRCode (st : WAState) (sender : String) : Option String :=
  match getA st.clientStatus sender with
  | none => none
  | some s => if optStrTruthy s.qrCode then s.qrCode else none

/-! ## Single send with retries (sendWhatsAppInvitation, lines 316-425) -/

/-- The outcome of one attempt of the try block of sendWhatsAppInvitation:
either a successful send returning a message id, or a thrown error
identified by its message string. -/
inductive AttemptOutcome where
  | okSend (msgId : String)
  | errThrown (msg : String)
deriving DecidableEq

/-- The transient classification of the catch block: the error message
includes "Evaluation failed", "Protocol error" or "not registered". -/
def isTransientStr (m : String) : Bool :=
  strIncludes m "Evaluation failed" || strIncludes m "Protocol error" ||
    strIncludes m "not registered"

/-- The error description the final failure result carries:
`lastError?.message || String(lastError) || "Unknown error"`.  A nonempty
message is used as is; an empty message falls back to String(err) which is
never empty (so "Unknown error" is unreachable for Error objects); an
absent lastError (no attempt ran) stringifies to "undefined". -/
def errDescr (m : String) : String := if m == "" then "Error" else m

/-- The structured result of sendWhatsAppInvitation. -/
structure SendOutcome where
  success : Bool
  msgId : Option String
  error : Option String
deriving DecidableEq

/-- The failure result built after the loop. -/
def mkFailResult : Option String → SendOutcome
  | some m => ⟨false, none, some (errDescr m)⟩
  | none => ⟨false, none, some "undefined"⟩

/-- Result of the whole call plus the attempts made and the backoff waits
performed (milliseconds), for stating the retry policy. -/
structure SendFinal where
  res : SendOutcome
  attempts : Nat
  waits : List Nat
deriving DecidableEq

/-- The retry loop of sendWhatsAppInvitation: attempts run from 1 to
retries; a success returns immediately; a transient error before the last
attempt sleeps 5000 ms and retries; a transient error on the last attempt
ends the loop; any other error breaks immediately.  `fuel` counts the
remaining iterations (retries + 1 - attempt). -/
def sendGo (outcomes : Nat → AttemptOutcome) (retries : Nat) :
    Nat → Nat → Option String → List Nat → SendFinal
  | 0, attempt, last, waits => ⟨mkFailResult last, attempt - 1, waits⟩
  | fuel + 1, attempt, last, waits =>
    match outcomes attempt with
    | .okSend i => ⟨⟨true, some i, none⟩, attempt, waits⟩
    | .errThrown m =>
      if isTransientStr m then
        if attempt < retries then
          sendGo outcomes retries fuel (attempt + 1) (some m) (waits ++ [5000])
        else ⟨mkFailResult (some m), attempt, waits⟩
      else ⟨mkFailResult (some m), attempt, waits⟩

/-- sendWhatsAppInvitation with its attempt outcomes abstracted: run the
retry loop from attempt 1 with no recorded error. -/
def sendWhatsAppInvitation (outcomes : Nat → AttemptOutcome) (retries : Nat) :
    SendFinal :=
  sendGo outcomes retries retries 1 none []

/-- The retry policy, as a predicate on the loop result `F` when started at
`attempt` with `waits` already recorded: the final attempt number stays in
range; every attempt strictly before the final one threw a transient error
(so a non-transient error stops retrying at once); one fixed 5000 ms wait
is recorded per retry; and the final attempt outcome determines the result,
a failure carrying the description of the last error. -/
def SendGoSpec (outcomes : Nat → AttemptOutcome) (retries attempt : Nat)
    (waits : List Nat) (F : SendFinal) : Prop :=
  (attempt ≤ F.attempts ∧ F.attempts ≤ retries)
  ∧ (∀ i, attempt ≤ i → i < F.attempts →
      ∃ m, outcomes i = AttemptOutcome.errThrown m ∧ isTransientStr m = true)
  ∧ F.waits = waits ++ List.replicate (F.attempts - attempt) 5000
  ∧ (F.res.success = true →
      ∃ i2, outcomes F.attempts = AttemptOutcome.okSend i2)
  ∧ (F.res.success = false →
      ∃ m, outcomes F.attempts = AttemptOutcome.errThrown m
        ∧ F.res.error = some (errDescr m))

/-! ## Batch dispatch (sendBulkInvitations, lines 435-484) -/

/-- A guest record as the dispatcher sees it. -/
structure Guest where
  name : String
  phoneTo : Option String
deriving DecidableEq

/-- One detail entry of the batch result (name, phone and the spread of the
per-guest send result). -/
structure Detail where
  name : String
  phone : Option String
  success : Bool
  msgId : Option String
  error : Option String
deriving DecidableEq

/-- The aggregated batch result. -/
structure BulkResults where
  total : Nat
  successful : Nat
  failed : Nat
  details : List Detail
deriving DecidableEq

/-- The detail entry recorded for a guest with a missing (falsy) phone. -/
def missingPhoneDetail (g : Guest) : Detail :=
  ⟨g.name, none, false, none, some "Missing phone number"⟩

/-- The detail entry recorded after sending to a guest. -/
def sentDetail (g : Guest) (r : SendOutcome) : Detail :=
  ⟨g.name, g.phoneTo, r.success, r.msgId, r.error⟩

/-- The entry the loop records for one guest: the missing-phone entry when
the phone is falsy, else the spread of the send result. -/
def detailOf (send : Guest → SendOutcome) (g : Guest) : Detail :=
  if optStrTruthy g.phoneTo then sentDetail g (send g) else missingPhoneDetail g

/-- Count of list elements satisfying a predicate. -/
def countB {α : Type} (q : α → Bool) : List α → Nat
  | [] => 0
  | a :: t => (if q a then 1 else 0) + countB q t

/-- The guest loop of sendBulkInvitations: skip-and-record guests without a
phone, otherwise send (sendWhatsAppInvitation never throws, it returns a
failure result) and record; tally successful/failed as it goes. -/
def bulkGo (send : Guest → SendOutcome) : List Guest → BulkResults → BulkResults
  | [], acc => acc
  | g :: rest, acc =>
    if optStrTruthy g.phoneTo then
      let r := send g
      bulkGo send rest
        { acc with
          successful := acc.successful + (if r.success then 1 else 0),
          failed := acc.failed + (if r.success then 0 else 1),
          details := acc.details ++ [sentDetail g r] }
    else
      bulkGo send rest
        { acc with
          failed := acc.failed + 1,
          details := acc.details ++ [missingPhoneDetail g] }

/-- sendBulkInvitations with the per-guest send abstracted: total is fixed
to the guest count up front, counters start at zero, details empty. -/
def sendBulkInvitations (send : Guest → SendOutcome) (guests : List Guest) :
    BulkResults :=
  bulkGo send guests ⟨guests.length, 0, 0, []⟩

/-! ## Readiness polling (waitForReady, lines 176-221 and 902-948) -/

/-- A JS computation that either returns or throws (by message). -/
inductive JsResult (α : Type) where
  | okVal (val : α)
  | thrown (msg : String)
deriving DecidableEq

/-- Result of one waitForReady call past the fast path: the polling loop
found the session ready at some check index; or its deadline passed and the
timeout error was thrown; or the awaited open promise rejected and that
error propagated; or the awaited open promise never settles, so the call
stays suspended forever (it hangs). -/
inductive WFRResult where
  | readyAt (checkIdx : Nat)
  | timedOut (msg : String)
  | openFailed (msg : String)
  | neverResolves
deriving DecidableEq

/-- The thrown timeout message: both revisions build it from the sender and
the budget. -/
def timeoutText (sender : String) (m : Nat) : String :=
  "WhatsApp client for " ++ sender ++ " did not become ready within "
    ++ toString m ++ "ms"

/-- The polling loop of waitForReady: while the budget allows (always, when
maxWait is null), check readiness and otherwise sleep one interval (1000 ms
in v1, 500 ms in v2).  Check k happens at elapsed time k * interval, with
startTime taken when the loop starts.  `fuel` bounds the modelled
iterations; `none` means the fuel ran out with the loop still running
(never the case with enough fuel and a finite budget). -/
def pollLoop (sender : String) (ready : Nat → Bool) (interval : Nat)
    (maxWait : Option Nat) : Nat → Nat → Option WFRResult
  | 0, _ => none
  | fuel + 1, k =>
    match maxWait with
    | none =>
      if ready k then some (.readyAt k)
      else pollLoop sender ready interval none fuel (k + 1)
    | some m =>
      if k * interval < m then
        if ready k then some (.readyAt k)
        else pollLoop sender ready interval (some m) fuel (k + 1)
      else some (.timedOut (timeoutText sender m))

/-- The observable shape of one waitForReady call: whether it went through
open (it does whenever the fast path fails, in particular when no session
exists), and what the call produced. -/
structure WFROut where
  calledOpen : Bool
  result : Option WFRResult
deriving DecidableEq

/-- waitForReady: return immediately when a stored session is ready with a
populated identity.  Otherwise the code awaits initializeWhatsApp before
taking startTime: that promise settles only when the ready event fires
(resolve) or on auth failure / initialize error (reject), so `openOutcome`
abstracts its settlement, with `none` meaning the session never becomes
ready and the promise never settles — the await then suspends forever and
nothing later in the function (startTime, the polling loop, the timeout
throw) is ever reached.  Only after a resolution does the polling loop run
with sleeps until ready or until the budget elapses (null budget polls
forever). -/
def waitForReadyModel (st : WAState) (sender : String)
    (openOutcome : Option (JsResult Unit)) (ready : Nat → Bool)
    (interval : Nat) (maxWait : Option Nat) (fuel : Nat) : WFROut :=
  if existingReady st sender then ⟨false, some (.readyAt 0)⟩
  else
    let r : Option WFRResult :=
      match openOutcome with
      | none => some .neverResolves
      | some (.thrown m) => some (.openFailed m)
      | some (.okVal _) => pollLoop sender ready interval maxWait fuel 0
    ⟨true, r⟩

/-- A session that never reports ready. -/
def neverReady : Nat → Bool := fun _ => false

/-! ## Teardown error handling (v2 lines 548-578, admin.js clear-session) -/

/-- try / catch. -/
def tryCatchJ {α : Type} (x : JsResult α) (handler : String → JsResult α) :
    JsResult α :=
  match x with
  | .okVal a => .okVal a
  | .thrown m => handler m

/-- client.destroy() with its outcome abstracted: none = returned, some m =
threw an error whose message is m. -/
def destroyCall (outcome : Option String) : JsResult Unit :=
  match outcome with
  | none => .okVal ()
  | some m => .thrown m

/-- The classification of expected teardown errors: the message includes
"Target closed" or "Protocol error". -/
def teardownErrorExpected (m : String) : Bool :=
  strIncludes m "Target closed" || strIncludes m "Protocol error"

/-- The destroy step of the v2 reinitialization path (lines 550-573): the
inner catch classifies and logs (expected messages get the continuing log,
others a warning) and the outer catch logs too; the emitted log lines are
returned so the classification is observable. -/
def destroyNonReadyClient (outcome : Option String) : JsResult (List String) :=
  tryCatchJ
    (match destroyCall outcome with
     | .okVal _ => .okVal []
     | .thrown m =>
       if teardownErrorExpected m then
         .okVal ["Client target already closed (expected), continuing..."]
       else
         .okVal ["Error disconnecting client: " ++ m])
    (fun m => .okVal ["Error disconnecting existing client (continuing anyway): " ++ m])

/-- The whole v2 teardown path for a non-ready, QR-less client: destroy
(errors swallowed as above), then delete both map entries. -/
def teardownNonReady (st : WAState) (sender : String) (outcome : Option String) :
    JsResult (WAState × List String) :=
  match destroyNonReadyClient outcome with
  | .thrown m => .thrown m
  | .okVal logs =>
    .okVal
      ({ st with
         whatsappClients := delA st.whatsappClients sender,
         clientStatus := delA st.clientStatus sender }, logs)

/-- An HTTP response of the clear-session route. -/
structure RouteResp where
  status : Nat
  success : Bool
deriving DecidableEq

/-- DELETE /api/admin/clear-session/:sender (admin.js lines 445-482): if the
credential directory exists it is removed (fs.rmSync), then any in-memory
client is destroyed with the error caught and logged; the route responds
200 success either way.  The returned Bool says whether credential state is
still on disk afterwards. -/
def clearSessionRoute (credsExist clientExists : Bool) (outcome : Option String) :
    JsResult (RouteResp × Bool) :=
  if credsExist then
    match (if clientExists then tryCatchJ (destroyCall outcome) (fun _ => .okVal ())
           else .okVal ()) with
    | .thrown m => .thrown m
    | .okVal _ => .okVal (⟨200, true⟩, false)
  else .okVal (⟨200, true⟩, false)

/-! ## Concrete fixtures used by witnesses and counterexamples -/

/-- A store holding one non-ready session for sender a with an issued QR
code and a constructed client that has no identity yet. -/
def qrPendingState : WAState :=
  ⟨[("a", ⟨0, none⟩)], [("a", ⟨false, some "QRDATA", false⟩)], 1⟩

/-- A store holding one non-ready session for sender a whose stored QR code
is the empty string (non-null but JS-falsy) and a stuck client. -/
def emptyQrState : WAState :=
  ⟨[("a", ⟨0, none⟩)], [("a", ⟨false, some "", false⟩)], 1⟩

/-- Attempt outcomes where attempt 1 throws a transient protocol error and
every later attempt throws a non-transient error. -/
def sampleOutcomes : Nat → AttemptOutcome := fun k =>
  if k == 1 then .errThrown "Protocol error: page closed" else .errThrown "boom"

/-! ## List helper lemmas -/

theorem allImp {α : Type} {q1 q2 : α → Bool} (h : ∀ a, q1 a = true → q2 a = true) :
    ∀ l : List α, l.all q1 = true → l.all q2 = true := by
  intro l hl
  induction l with
  | nil => rfl
  | cons a t ih =>
    simp only [List.all_cons, Bool.and_eq_true] at hl ⊢
    exact ⟨h a hl.1, ih hl.2⟩

theorem allImp2 {α : Type} (q1 q2 q3 : α → Bool)
    (h : ∀ a, q1 a = true → q2 a = true → q3 a = true) :
    ∀ l : List α, l.all q1 = true → l.all q2 = true → l.all q3 = true := by
  intro l h1 h2
  induction l with
  | nil => rfl
  | cons a t ih =>
    simp only [List.all_cons, Bool.and_eq_true] at h1 h2 ⊢
    exact ⟨h a h1.1 h2.1, ih h1.2 h2.2⟩

theorem allTail {α : Type} {q : α → Bool} {l : List α} (h : l.all q = true) :
    l.tail.all q = true := by
  cases l with
  | nil => rfl
  | cons a t =>
    simp only [List.all_cons, Bool.and_eq_true] at h
    exact h.2

theorem allAppendB {α : Type} {q : α → Bool} {l1 l2 : List α}
    (h1 : l1.all q = true) (h2 : l2.all q = true) : (l1 ++ l2).all q = true := by
  simp [List.all_append, h1, h2]

theorem allFilterSelf {α : Type} (q : α → Bool) (l : List α) :
    (l.filter q).all q = true := by
  induction l with
  | nil => rfl
  | cons a t ih => cases hq : q a <;> simp [List.filter_cons, hq, List.all_cons, ih]

theorem filterAllTrue {α : Type} (q : α → Bool) (l : List α) (h : l.all q = true) :
    l.filter q = l := by
  induction l with
  | nil => rfl
  | cons a t ih =>
    simp only [List.all_cons, Bool.and_eq_true] at h
    simp [List.filter_cons, h.1, ih h.2]

theorem allFilter {α : Type} {p f : α → Bool} (l : List α) (hl : l.all p = true) :
    (l.filter f).all p = true := by
  induction l with
  | nil => rfl
  | cons a t ih =>
    simp only [List.all_cons, Bool.and_eq_true] at hl
    cases hf : f a <;> simp [List.filter_cons, hf, List.all_cons, hl.1, ih hl.2]

theorem allMapPres {α : Type} {p : α → Bool} {f : α → α}
    (hf : ∀ a, p a = true → p (f a) = true) :
    ∀ l : List α, l.all p = true → (l.map f).all p = true := by
  intro l hl
  induction l with
  | nil => rfl
  | cons a t ih =>
    simp only [List.all_cons, Bool.and_eq_true] at hl
    simp only [List.map_cons, List.all_cons, Bool.and_eq_true]
    exact ⟨hf a hl.1, ih hl.2⟩

theorem allSetA {α : Type} {p : String × α → Bool} (k : String) (v : α)
    (l : List (String × α)) (hl : l.all p = true) (hv : p (k, v) = true) :
    (setA l k v).all p = true := by
  induction l with
  | nil => simp [setA, hv]
  | cons q t ih =>
    simp only [List.all_cons, Bool.and_eq_true] at hl
    cases hq : q.1 == k with
    | true => simp [setA, hq, List.all_cons, hv, hl.2]
    | false => simp [setA, hq, List.all_cons, hl.1, ih hl.2]

theorem getA_delA_self {α : Type} (l : List (String × α)) (k : String) :
    getA (delA l k) k = none := by
  induction l with
  | nil => rfl
  | cons q t ih =>
    cases hq : q.1 == k <;> simp [delA, List.filter_cons, hq, getA, ih] <;>
      simpa [delA] using ih

theorem getA_filter_keep {α : Type} (f : String × α → Bool) (k : String)
    (l : List (String × α)) (hk : ∀ v, f (k, v) = true) :
    getA (l.filter f) k = getA l k := by
  induction l with
  | nil => rfl
  | cons q t ih =>
    obtain ⟨a, b⟩ := q
    cases hq : a == k with
    | true =>
      have ha : a = k := eq_of_beq hq
      subst ha
      simp [List.filter_cons, hk b, getA]
    | false =>
      cases hf : f (a, b) <;> simp [List.filter_cons, hf, getA, hq, ih]

theorem getA_map_pair {α β : Type} (g : α → β) (k : String)
    (l : List (String × α)) :
    getA (l.map (fun q => (q.1, g q.2))) k = (getA l k).map g := by
  induction l with
  | nil => rfl
  | cons q t ih => cases hq : q.1 == k <;> simp [List.map_cons, getA, hq, ih]

theorem countB_add_not {α : Type} (q : α → Bool) (l : List α) :
    countB q l + countB (fun a => !q a) l = l.length := by
  induction l with
  | nil => rfl
  | cons a t ih => cases hq : q a <;> simp [countB, hq] <;> omega

/-! ## Phone normalizer lemmas -/

theorem startsWithL_nil (s : List Char) : startsWithL s [] = true := by
  cases s <;> rfl

theorem startsWithL_append_self (x l : List Char) : startsWithL (x ++ l) x = true := by
  induction x with
  | nil => simp [startsWithL_nil]
  | cons a t ih => simp [startsWithL, ih]

theorem startsWithL_decomp {c : List Char} {b : Char} {t : List Char}
    (h : startsWithL c (b :: t) = true) :
    ∃ s, c = b :: s ∧ startsWithL s t = true := by
  cases c with
  | nil => simp [startsWithL] at h
  | cons a s =>
    simp only [startsWithL, Bool.and_eq_true] at h
    exact ⟨s, by rw [eq_of_beq h.1], h.2⟩

theorem cleanPhone_all_keep (p : List Char) :
    (cleanPhone p).all keepPhoneChar = true := allFilterSelf keepPhoneChar p

theorem cleanPhone_all_digit (p : List Char)
    (hnp : (cleanPhone p).all (fun c => !(c == '+')) = true) :
    (cleanPhone p).all Char.isDigit = true := by
  refine allImp2 keepPhoneChar (fun c => !(c == '+')) Char.isDigit ?_ _
    (cleanPhone_all_keep p) hnp
  intro a h1 h2
  simp only [keepPhoneChar, Bool.or_eq_true] at h1
  cases h1 with
  | inl h => exact h
  | inr h => simp [h] at h2

theorem cleanPhone_of_digits (l : List Char) (h : l.all Char.isDigit = true) :
    cleanPhone l = l := by
  refine filterAllTrue keepPhoneChar l (allImp ?_ l h)
  intro a ha
  simp [keepPhoneChar, ha]

theorem code972_all_digit : code972.all Char.isDigit = true := by decide

theorem stripLeadPlus_of_digits (l : List Char) (h : l.all Char.isDigit = true) :
    stripLeadPlus l = l := by
  cases l with
  | nil => rfl
  | cons a t =>
    simp only [List.all_cons, Bool.and_eq_true] at h
    have ha : (a == '+') = false := by
      cases hc : a == '+' with
      | false => rfl
      | true =>
        rw [eq_of_beq hc] at h
        exact absurd h.1 (by decide)
    simp [stripLeadPlus, ha]

theorem rewriteRegion_of_starts972 (c : List Char)
    (h : startsWithL c code972 = true) : rewriteRegion c = c := by
  obtain ⟨s, rfl, -⟩ := startsWithL_decomp (t := ['7', '2']) h
  have h0 : startsWithL ('9' :: s) ['0'] = false := by
    simp only [startsWithL]; decide
  have h2 : startsWithL ('9' :: s) ('+' :: code972) = false := by
    have hc : (('9' : Char) == '+') = false := by decide
    simp [startsWithL, hc]
  simp [rewriteRegion, h0, h2, h]

theorem starts972_code972_append (l : List Char) :
    startsWithL (code972 ++ l) code972 = true := startsWithL_append_self code972 l

theorem stripLeadPlus_code972_append (l : List Char) :
    stripLeadPlus (code972 ++ l) = code972 ++ l := by
  have hc : (('9' : Char) == '+') = false := by decide
  simp [code972, stripLeadPlus, hc]

/-- C6 counterexample: the cleaned input "0+5" starts with the trunk prefix
0, yet the normalized output keeps the interior plus sign, so it is not all
digits (the cleaning step keeps every plus, not only a leading one). -/
theorem formatPhone_plus_counterexample :
    startsWithL (cleanPhone ("0+5".data)) ['0'] = true
    ∧ formatPhoneNumberS "0+5" = "972+5"
    ∧ (formatPhoneNumber ("0+5".data)).all Char.isDigit = false := by decide

/-- C6 (amended): for every input whose cleaned form starts with the trunk
prefix 0, formatPhoneNumber replaces the leading 0 of the cleaned form with
972; the output is all digits whenever the cleaned form contains no plus
sign; and the spec example 0501234567 normalizes to 972501234567. -/
theorem formatPhone_trunk_amended :
    (∀ p : List Char, startsWithL (cleanPhone p) ['0'] = true →
      formatPhoneNumber p = code972 ++ (cleanPhone p).tail
      ∧ ((cleanPhone p).all (fun c => !(c == '+')) = true →
          (formatPhoneNumber p).all Char.isDigit = true))
    ∧ formatPhoneNumberS "0501234567" = "972501234567" := by
  constructor
  · intro p h0
    have hr : rewriteRegion (cleanPhone p) = code972 ++ (cleanPhone p).tail := by
      simp [rewriteRegion, h0]
    have hf : formatPhoneNumber p = code972 ++ (cleanPhone p).tail := by
      rw [formatPhoneNumber, hr, stripLeadPlus_code972_append]
    refine ⟨hf, ?_⟩
    intro hnp
    rw [hf]
    exact allAppendB code972_all_digit (allTail (cleanPhone_all_digit p hnp))
  · decide

/-- C6 witness: the amended theorem applied to the concrete input
0501234567. -/
theorem formatPhone_trunk_amended_witness :
    formatPhoneNumber ("0501234567".data)
      = code972 ++ (cleanPhone ("0501234567".data)).tail
    ∧ (formatPhoneNumber ("0501234567".data)).all Char.isDigit = true :=
  ⟨(formatPhone_trunk_amended.1 ("0501234567".data) (by decide)).1,
   (formatPhone_trunk_amended.1 ("0501234567".data) (by decide)).2 (by decide)⟩

/-- C7 counterexample: formatPhoneNumber is not idempotent on every string;
on "++1" a first pass strips one leading plus and a second pass strips the
next one. -/
theorem formatPhone_idem_counterexample :
    formatPhoneNumberS "++1" = "+1" ∧ formatPhoneNumberS "+1" = "1"
    ∧ ¬ (formatPhoneNumber (formatPhoneNumber ("++1".data))
          = formatPhoneNumber ("++1".data)) := by decide

/-- C7 (amended): formatPhoneNumber (a total function) is idempotent on
every input whose cleaned form contains no plus sign, in particular on all
digit-only inputs; it is not idempotent on inputs with surplus plus signs. -/
theorem formatPhone_idem_amended (p : List Char)
    (hnp : (cleanPhone p).all (fun c => !(c == '+')) = true) :
    formatPhoneNumber (formatPhoneNumber p) = formatPhoneNumber p := by
  have hd : (cleanPhone p).all Char.isDigit = true := cleanPhone_all_digit p hnp
  have fixpoint : ∀ r : List Char, r.all Char.isDigit = true →
      startsWithL r code972 = true → formatPhoneNumber r = r := by
    intro r hrd hr9
    rw [formatPhoneNumber, cleanPhone_of_digits r hrd,
      rewriteRegion_of_starts972 r hr9, stripLeadPlus_of_digits r hrd]
  cases h0 : startsWithL (cleanPhone p) ['0'] with
  | true =>
    have hf : formatPhoneNumber p = code972 ++ (cleanPhone p).tail := by
      rw [formatPhoneNumber]
      rw [show rewriteRegion (cleanPhone p) = code972 ++ (cleanPhone p).tail by
        simp [rewriteRegion, h0]]
      exact stripLeadPlus_code972_append _
    rw [hf]
    exact fixpoint _ (allAppendB code972_all_digit (allTail hd))
      (starts972_code972_append _)
  | false =>
    cases h2 : startsWithL (cleanPhone p) ('+' :: code972) with
    | true =>
      exfalso
      obtain ⟨s, hs, -⟩ := startsWithL_decomp h2
      rw [hs] at hnp
      simp only [List.all_cons, Bool.and_eq_true] at hnp
      exact absurd hnp.1 (by decide)
    | false =>
      cases h3 : (!startsWithL (cleanPhone p) code972
          && (cleanPhone p).length == 9) with
      | true =>
        have hf : formatPhoneNumber p = code972 ++ cleanPhone p := by
          rw [formatPhoneNumber]
          rw [show rewriteRegion (cleanPhone p) = code972 ++ cleanPhone p by
            simp [rewriteRegion, h0, h2, h3]]
          exact stripLeadPlus_code972_append _
        rw [hf]
        exact fixpoint _ (allAppendB code972_all_digit hd)
          (starts972_code972_append _)
      | false =>
        have hf : formatPhoneNumber p = cleanPhone p := by
          rw [formatPhoneNumber]
          rw [show rewriteRegion (cleanPhone p) = cleanPhone p by
            simp [rewriteRegion, h0, h2, h3]]
          exact stripLeadPlus_of_digits _ hd
        rw [hf, formatPhoneNumber, cleanPhone_of_digits _ hd]
        rw [show rewriteRegion (cleanPhone p) = cleanPhone p by
          simp [rewriteRegion, h0, h2, h3]]
        exact stripLeadPlus_of_digits _ hd

/-- C7 witness: idempotence at the concrete digit-only input 0501234567. -/
theorem formatPhone_idem_amended_witness :
    formatPhoneNumber (formatPhoneNumber ("0501234567".data))
      = formatPhoneNumber ("0501234567".data) :=
  formatPhone_idem_amended ("0501234567".data) (by decide)

/-! ## Session store invariant (C1) and open-call behaviour (C2) -/

theorem InvB_statusResetForOpen (st : WAState) (sender : String)
    (h : InvB st = true) : InvB (statusResetForOpen st sender) = true := by
  simp only [InvB, statusResetForOpen] at h ⊢
  exact allSetA _ _ _ h rfl

theorem InvB_constructClient (st : WAState) (sender : String)
    (h : InvB st = true) : InvB (constructClient st sender) = true := by
  simpa [InvB, constructClient] using h

theorem statusOK_sweepStatus (q : String × Status) (h : statusOK q = true) :
    statusOK (q.1, sweepStatus q.2) = true := by
  obtain ⟨k, s⟩ := q
  cases hc : s.isReady && optStrTruthy s.qrCode with
  | true => simp [sweepStatus, hc, statusOK]
  | false => simpa [sweepStatus, hc, statusOK] using h

/-- Every single transition preserves the readiness/QR exclusion. -/
theorem step_preserves_InvB (st : WAState) (e : WEvent) (h : InvB st = true) :
    InvB (step st e) = true := by
  cases e with
  | qrIssued sender q =>
    simp only [step, qrEventStep, InvB] at h ⊢
    exact allSetA _ _ _ h rfl
  | readyEv sender =>
    simp only [step, readyEventStep, InvB] at h ⊢
    exact allSetA _ _ _ h rfl
  | disconnectedEv sender =>
    simp only [step, disconnectedStep, InvB, delA] at h ⊢
    exact allFilter _ h
  | openV1 sender =>
    simp only [step]
    cases hg : getA st.whatsappClients sender with
    | none =>
      simp only [initWhatsAppV1, hg]
      exact InvB_constructClient _ _ (InvB_statusResetForOpen _ _ h)
    | some c =>
      cases hr : existingReady st sender with
      | true => simpa [initWhatsAppV1, hg, hr] using h
      | false =>
        simp only [initWhatsAppV1, hg, hr, Bool.false_eq_true, if_false]
        exact InvB_constructClient _ _ (InvB_statusResetForOpen _ _ h)
  | openV2 sender =>
    simp only [step]
    cases hg : getA st.whatsappClients sender with
    | none =>
      simp only [initWhatsAppV2, hg]
      exact InvB_constructClient _ _ (InvB_statusResetForOpen _ _ h)
    | some c =>
      cases hr : existingReady st sender with
      | true => simpa [initWhatsAppV2, hg, hr] using h
      | false =>
        cases hq : pendingQR st sender with
        | true => simpa [initWhatsAppV2, hg, hr, hq] using h
        | false =>
          simp only [initWhatsAppV2, hg, hr, hq, Bool.false_eq_true, if_false]
          refine InvB_constructClient _ _ (InvB_statusResetForOpen _ _ ?_)
          simp only [InvB, delA] at h ⊢
          exact allFilter _ h
  | sweepQR =>
    simp only [step, cleanupOldQRCodes, InvB] at h ⊢
    exact allMapPres statusOK_sweepStatus _ h
  | sweepInactive =>
    simp only [step, cleanupInactiveClients, InvB] at h ⊢
    exact allFilter _ h

/-- C1: after every state transition of a session (QR issued, ready,
disconnected, either revision of open, reaper sweeps) no stored status is
simultaneously ready and holding a QR code: single transitions preserve
the exclusion, and every transition trace from the empty store satisfies
it.  The qr handler stores the code with isReady forced to false and the
ready handler stores isReady true with the code nulled. -/
theorem qr_ready_mutual_exclusion :
    (∀ (st : WAState) (e : WEvent), InvB st = true → InvB (step st e) = true)
    ∧ (∀ evs : List WEvent, InvB (run evs) = true) := by
  constructor
  · exact step_preserves_InvB
  · intro evs
    have gen : ∀ (l : List WEvent) (st : WAState),
        InvB st = true → InvB (l.foldl step st) = true := by
      intro l
      induction l with
      | nil => intro st h; exact h
      | cons e t ih => intro st h; exact ih _ (step_preserves_InvB st e h)
    exact gen evs initState rfl

/-- C1 witness: the exclusion after concrete transitions (a ready event on
a store holding a pending QR code, and a short concrete trace). -/
theorem qr_ready_mutual_exclusion_witness :
    InvB (step qrPendingState (WEvent.readyEv "a")) = true
    ∧ InvB (run [WEvent.qrIssued "a" "QR", WEvent.readyEv "a"]) = true :=
  ⟨qr_ready_mutual_exclusion.1 qrPendingState (WEvent.readyEv "a") (by decide),
   qr_ready_mutual_exclusion.2 [WEvent.qrIssued "a" "QR", WEvent.readyEv "a"]⟩

/-- C2: on a store whose session for sender a is unready with an issued QR
code, the first revision of initializeWhatsApp falls through its QR branch
(which only logs, despite its comment saying it returns the existing client
promise) and constructs a second Client, replacing the stored handle; the
second revision attaches to the existing connection and constructs
nothing. -/
theorem openExistingQR_spawns_second_connection :
    (initWhatsAppV1 qrPendingState "a").2 = InitAction.construct
    ∧ (initWhatsAppV1 qrPendingState "a").1.nextCid = 2
    ∧ getA (initWhatsAppV1 qrPendingState "a").1.whatsappClients "a"
        = some ⟨1, none⟩
    ∧ (initWhatsAppV2 qrPendingState "a").2 = InitAction.attachExisting
    ∧ (initWhatsAppV2 qrPendingState "a").1 = qrPendingState := by decide

/-! ## Reaper frame conditions (C8) -/

/-- C8 (amended): the QR sweep rewrites each status entry pointwise with
`sweepStatus` (which clears the code and waiter exactly when the session is
ready with a truthy stored code) and leaves the client map untouched; the
stuck-client sweep never destroys or removes a session holding a non-empty
(truthy) pairing code. -/
theorem reaper_frame_amended (st : WAState) (sender : String) :
    (getA (cleanupOldQRCodes st).1.clientStatus sender
        = (getA st.clientStatus sender).map sweepStatus
      ∧ (cleanupOldQRCodes st).1.whatsappClients = st.whatsappClients)
    ∧ (∀ s : Status, getA st.clientStatus sender = some s →
        optStrTruthy s.qrCode = true →
          getA (cleanupInactiveClients st).1.whatsappClients sender
              = getA st.whatsappClients sender
          ∧ getA (cleanupInactiveClients st).1.clientStatus sender = some s) := by
  refine ⟨⟨?_, rfl⟩, ?_⟩
  · simpa [cleanupOldQRCodes] using getA_map_pair sweepStatus sender st.clientStatus
  · intro s hs ht
    have hcond : ∀ c : Client, inactiveCond st sender c = false := by
      intro c
      simp [inactiveCond, hs, ht]
    constructor
    · simp only [cleanupInactiveClients]
      exact getA_filter_keep _ sender st.whatsappClients (fun c => by simp [hcond c])
    · simp only [cleanupInactiveClients]
      rw [getA_filter_keep _ sender st.clientStatus ?_]
      · exact hs
      · intro v
        cases hgc : getA st.whatsappClients sender with
        | none => simp [hgc]
        | some c => simp [hgc, hcond c]

/-- C8 witness: the stuck-client sweep leaves the pending-QR session of
`qrPendingState` (code "QRDATA") fully in place. -/
theorem reaper_frame_amended_witness :
    getA (cleanupInactiveClients qrPendingState).1.whatsappClients "a"
        = getA qrPendingState.whatsappClients "a"
    ∧ getA (cleanupInactiveClients qrPendingState).1.clientStatus "a"
        = some ⟨false, some "QRDATA", false⟩ :=
  (reaper_frame_amended qrPendingState "a").2
    ⟨false, some "QRDATA", false⟩ (by decide) (by decide)

/-- C8 counterexample: a session whose stored pairing code is the empty
string (non-null, but JS-falsy) is destroyed and removed by the
stuck-client sweep, so the claim is false for non-null-but-empty codes. -/
theorem cleanupInactive_nonnull_counterexample :
    ((getA emptyQrState.clientStatus "a").getD freshStatus).qrCode = some ""
    ∧ (getA emptyQrState.clientStatus "a").isSome = true
    ∧ getA (cleanupInactiveClients emptyQrState).1.whatsappClients "a" = none
    ∧ getA (cleanupInactiveClients emptyQrState).1.clientStatus "a" = none := by
  decide

/-! ## Pure reads (C10) -/

/-- C10: for a sender with no stored session the pure reads return exactly
ready:false, qrCode:null and null; both are read-only functions of the
store. -/
theorem getStatus_getQRCode_total (st : WAState) (sender : String)
    (h : getA st.clientStatus sender = none) :
    getStatus st sender = ⟨false, none⟩ ∧ getQRCode st sender = none := by
  simp [getStatus, getQRCode, h]

/-- C10 witness: the empty store and an unknown sender. -/
theorem getStatus_getQRCode_total_witness :
    getStatus initState "nobody" = ⟨false, none⟩
    ∧ getQRCode initState "nobody" = none :=
  getStatus_getQRCode_total initState "nobody" rfl

/-! ## Batch dispatch shape (C3) -/

/-- Full characterization of the guest loop: counters accumulate pointwise
and one detail entry is appended per guest, in input order. -/
theorem bulkGo_spec (send : Guest → SendOutcome) :
    ∀ (gs : List Guest) (t s f : Nat) (ds : List Detail),
      bulkGo send gs ⟨t, s, f, ds⟩ =
        ⟨t, s + countB (fun g => optStrTruthy g.phoneTo && (send g).success) gs,
         f + countB (fun g => !(optStrTruthy g.phoneTo && (send g).success)) gs,
         ds ++ gs.map (detailOf send)⟩ := by
  intro gs
  induction gs with
  | nil => intro t s f ds; simp [bulkGo, countB]
  | cons g rest ih =>
    intro t s f ds
    cases hp : optStrTruthy g.phoneTo with
    | true =>
      cases hsucc : (send g).success with
      | true =>
        simp [bulkGo, hp, hsucc, ih, countB, detailOf, Nat.add_assoc]
      | false =>
        simp [bulkGo, hp, hsucc, ih, countB, detailOf, Nat.add_assoc]
    | false =>
      simp [bulkGo, hp, ih, countB, detailOf, Nat.add_assoc]

/-- C3: a batch over N guests produces total = N, exactly N detail entries
(one per guest, in input order: the details are exactly the pointwise
`detailOf` image of the guest list, so a failed send is recorded as a
success:false entry without aborting the batch), and successful + failed
= N. -/
theorem sendBulk_batch_shape (send : Guest → SendOutcome) (guests : List Guest) :
    (sendBulkInvitations send guests).total = guests.length
    ∧ (sendBulkInvitations send guests).details.length = guests.length
    ∧ (sendBulkInvitations send guests).successful
        + (sendBulkInvitations send guests).failed = guests.length
    ∧ (sendBulkInvitations send guests).details = guests.map (detailOf send) := by
  have h := bulkGo_spec send guests guests.length 0 0 []
  simp only [sendBulkInvitations]
  rw [h]
  refine ⟨rfl, ?_, ?_, ?_⟩
  · simp
  · simpa using countB_add_not (fun g => optStrTruthy g.phoneTo && (send g).success) guests
  · simp

/-! ## Retry policy (C4) -/

/-- The retry loop satisfies `SendGoSpec` whenever started in range with
matching fuel. -/
theorem sendGo_spec (outcomes : Nat → AttemptOutcome) (retries : Nat) :
    ∀ (fuel attempt : Nat) (last : Option String) (waits : List Nat),
      1 ≤ attempt → attempt ≤ retries → fuel + attempt = retries + 1 →
      SendGoSpec outcomes retries attempt waits
        (sendGo outcomes retries fuel attempt last waits) := by
  intro fuel
  induction fuel with
  | zero => intro attempt last waits h1 h2 h3; omega
  | succ fuel ih =>
    intro attempt last waits h1 h2 h3
    cases ho : outcomes attempt with
    | okSend i =>
      have hred : sendGo outcomes retries (fuel + 1) attempt last waits
          = ⟨⟨true, some i, none⟩, attempt, waits⟩ := by
        simp [sendGo, ho]
      rw [hred]
      refine ⟨⟨le_refl _, h2⟩, ?_, by simp, fun _ => ⟨i, ho⟩, ?_⟩
      · intro i hi1 hi2
        have hlt2 : i < attempt := hi2
        omega
      · intro hf
        have hff : (true : Bool) = false := hf
        exact absurd hff (by decide)
    | errThrown m =>
      cases ht : isTransientStr m with
      | false =>
        have hred : sendGo outcomes retries (fuel + 1) attempt last waits
            = ⟨mkFailResult (some m), attempt, waits⟩ := by
          simp [sendGo, ho, ht]
        rw [hred]
        refine ⟨⟨le_refl _, h2⟩, ?_, by simp, ?_, fun _ => ⟨m, ho, rfl⟩⟩
        · intro i hi1 hi2
          have hlt2 : i < attempt := hi2
          omega
        · intro hs
          have hff : (false : Bool) = true := hs
          exact absurd hff (by decide)
      | true =>
        by_cases hlt : attempt < retries
        · have hred : sendGo outcomes retries (fuel + 1) attempt last waits
              = sendGo outcomes retries fuel (attempt + 1) (some m)
                  (waits ++ [5000]) := by
            simp [sendGo, ho, ht, hlt]
          rw [hred]
          obtain ⟨⟨ia1, ia2⟩, ib, ic, id2, ie⟩ :=
            ih (attempt + 1) (some m) (waits ++ [5000]) (by omega) (by omega)
              (by omega)
          set F := sendGo outcomes retries fuel (attempt + 1) (some m)
            (waits ++ [5000]) with hF
          refine ⟨⟨by omega, ia2⟩, ?_, ?_, id2, ie⟩
          · intro i hi1 hi2
            rcases Nat.eq_or_lt_of_le hi1 with heq | hgt
            · exact ⟨m, heq ▸ ho, ht⟩
            · exact ib i hgt hi2
          · have hsub : F.attempts - attempt = (F.attempts - (attempt + 1)) + 1 := by
              omega
            rw [ic, hsub, List.append_assoc]
            congr 1
        · have hred : sendGo outcomes retries (fuel + 1) attempt last waits
              = ⟨mkFailResult (some m), attempt, waits⟩ := by
            simp [sendGo, ho, ht, hlt]
          rw [hred]
          refine ⟨⟨le_refl _, h2⟩, ?_, by simp, ?_, fun _ => ⟨m, ho, rfl⟩⟩
          · intro i hi1 hi2
            have hlt2 : i < attempt := hi2
            omega
          · intro hs
            have hff : (false : Bool) = true := hs
            exact absurd hff (by decide)

/-- C4: with the default retry bound 3, the send is attempted at most 3
times (and at least once); every attempt strictly before the final one
failed with an error classified transient (contains "Evaluation failed",
"Protocol error" or "not registered"), so any other error class stops the
retrying immediately; one fixed 5000 ms wait is recorded per retry; and a
failure result is success:false carrying the description of the last
attempt's error. -/
theorem sendInvitation_retry_policy (outcomes : Nat → AttemptOutcome) :
    (1 ≤ (sendWhatsAppInvitation outcomes 3).attempts
      ∧ (sendWhatsAppInvitation outcomes 3).attempts ≤ 3)
    ∧ (∀ i, 1 ≤ i → i < (sendWhatsAppInvitation outcomes 3).attempts →
        ∃ m, outcomes i = AttemptOutcome.errThrown m ∧ isTransientStr m = true)
    ∧ (sendWhatsAppInvitation outcomes 3).waits
        = List.replicate ((sendWhatsAppInvitation outcomes 3).attempts - 1) 5000
    ∧ ((sendWhatsAppInvitation outcomes 3).res.success = true →
        ∃ i2, outcomes (sendWhatsAppInvitation outcomes 3).attempts
          = AttemptOutcome.okSend i2)
    ∧ ((sendWhatsAppInvitation outcomes 3).res.success = false →
        ∃ m, outcomes (sendWhatsAppInvitation outcomes 3).attempts
            = AttemptOutcome.errThrown m
          ∧ (sendWhatsAppInvitation outcomes 3).res.error
            = some (errDescr m)) := by
  have h := sendGo_spec outcomes 3 3 1 none [] (by omega) (by omega) (by omega)
  simpa [SendGoSpec, sendWhatsAppInvitation] using h

/-- C4 witness: the policy at outcomes where attempt 1 throws a transient
protocol error and attempt 2 a non-transient one: two attempts, one 5000 ms
wait, failure carrying the last error. -/
theorem sendInvitation_retry_policy_witness :
    (sendWhatsAppInvitation sampleOutcomes 3).attempts = 2
    ∧ (sendWhatsAppInvitation sampleOutcomes 3).res.success = false
    ∧ (sendWhatsAppInvitation sampleOutcomes 3).res.error = some "boom"
    ∧ (sendWhatsAppInvitation sampleOutcomes 3).waits
        = List.replicate ((sendWhatsAppInvitation sampleOutcomes 3).attempts - 1)
            5000 := by
  have h := sendInvitation_retry_policy sampleOutcomes
  exact ⟨by decide, by decide, by decide, h.2.2.1⟩

/-! ## Readiness polling (C5) -/

/-- With a finite budget m and a positive sleep interval, fuel m + 1 always
suffices: the loop itself exits (ready or timed out) instead of running
forever, which is what makes the blocking await upstream of it a slip. -/
theorem pollLoop_terminates (sender : String) (ready : Nat → Bool)
    (interval m : Nat) (hi : 0 < interval) :
    ∀ (fuel k : Nat), m ≤ (k + fuel) * interval →
      (pollLoop sender ready interval (some m) (fuel + 1) k).isSome = true := by
  intro fuel
  induction fuel with
  | zero =>
    intro k hk
    simp only [Nat.add_zero] at hk
    have hnlt : ¬(k * interval < m) := by omega
    simp [pollLoop, hnlt]
  | succ fuel ih =>
    intro k hk
    by_cases hlt : k * interval < m
    · cases hr : ready k with
      | true => simp [pollLoop, hlt, hr]
      | false =>
        have hk2 : m ≤ (k + 1 + fuel) * interval := by
          rw [show k + 1 + fuel = k + (fuel + 1) by omega]
          exact hk
        simp only [pollLoop, hlt, if_true, hr, Bool.false_eq_true, if_false]
        exact ih (k + 1) hk2
    · simp [pollLoop, hlt]

/-- If readiness never arrives, the loop itself would end a finite budget
with exactly the thrown timeout error. -/
theorem pollLoop_timeout (sender : String) (ready : Nat → Bool)
    (interval m : Nat) (hnever : ∀ j, ready j = false) :
    ∀ (fuel k : Nat), m ≤ (k + fuel) * interval →
      pollLoop sender ready interval (some m) (fuel + 1) k
        = some (WFRResult.timedOut (timeoutText sender m)) := by
  intro fuel
  induction fuel with
  | zero =>
    intro k hk
    simp only [Nat.add_zero] at hk
    have hnlt : ¬(k * interval < m) := by omega
    simp [pollLoop, hnlt]
  | succ fuel ih =>
    intro k hk
    by_cases hlt : k * interval < m
    · have hk2 : m ≤ (k + 1 + fuel) * interval := by
        rw [show k + 1 + fuel = k + (fuel + 1) by omega]
        exact hk
      simp only [pollLoop, hlt, if_true, hnever k, Bool.false_eq_true, if_false]
      exact ih (k + 1) hk2
    · simp [pollLoop, hlt]

/-- With a null budget the loop never produces a timeout: whatever fuel the
model grants, it either finds a ready check or is still polling. -/
theorem pollLoop_null_no_timeout (sender : String) (ready : Nat → Bool)
    (interval : Nat) :
    ∀ (fuel k : Nat) (r : WFRResult),
      pollLoop sender ready interval none fuel k = some r →
      ∃ j, r = WFRResult.readyAt j := by
  intro fuel
  induction fuel with
  | zero => intro k r h; simp [pollLoop] at h
  | succ fuel ih =>
    intro k r h
    cases hr : ready k with
    | true =>
      simp [pollLoop, hr] at h
      exact ⟨k, h.symm⟩
    | false =>
      simp only [pollLoop, hr, Bool.false_eq_true, if_false] at h
      exact ih (k + 1) r h

/-- C5: the claim fails on the program.  waitForReady awaits
initializeWhatsApp before taking startTime, and that promise settles only
when the ready event fires (or rejects on auth failure / initialize
error), so against a session that never becomes ready — here sender a with
an issued QR code that is never scanned — the call stays suspended in the
await for every amount of modelled time: it hangs, goes through open, and
never raises the timeout error, with budget 1000 ms at the v2 interval of
500 ms.  (pollLoop_terminates and pollLoop_timeout show the loop after the
await would have enforced the budget, so the blocking await is the slip.) -/
theorem waitForReady_hangs_no_timeout :
    ∀ fuel : Nat,
      (waitForReadyModel qrPendingState "a" none neverReady 500 (some 1000)
          fuel).calledOpen = true
      ∧ (waitForReadyModel qrPendingState "a" none neverReady 500 (some 1000)
          fuel).result = some WFRResult.neverResolves
      ∧ (waitForReadyModel qrPendingState "a" none neverReady 500 (some 1000)
          fuel).result
          ≠ some (WFRResult.timedOut (timeoutText "a" 1000)) := by
  intro fuel
  have hmodel : waitForReadyModel qrPendingState "a" none neverReady 500
      (some 1000) fuel = ⟨true, some WFRResult.neverResolves⟩ := by
    simp [waitForReadyModel,
      show existingReady qrPendingState "a" = false by decide]
  rw [hmodel]
  exact ⟨rfl, rfl, by decide⟩

/-- C5 witness: the hang evaluated at the concrete fuel 1001 (enough fuel
for the whole 1000 ms budget, had the polling loop ever been reached). -/
theorem waitForReady_hangs_no_timeout_witness :
    (waitForReadyModel qrPendingState "a" none neverReady 500 (some 1000)
        1001).result = some WFRResult.neverResolves :=
  (waitForReady_hangs_no_timeout 1001).2.1

/-! ## Teardown error tolerance (C9) -/

/-- C9: whatever the destroy call does (returns, throws a Target closed or
Protocol error message, or throws anything else), the v2 teardown path
never propagates the error and completes the removal of both session store
entries; and the clear-session route never propagates it either, answering
200 success with the persisted credential state deleted. -/
theorem teardown_errors_swallowed (st : WAState) (sender : String)
    (outcome : Option String) (credsExist clientExists : Bool) :
    (∃ st2 logs, teardownNonReady st sender outcome = JsResult.okVal (st2, logs)
      ∧ getA st2.whatsappClients sender = none
      ∧ getA st2.clientStatus sender = none)
    ∧ (∃ resp : RouteResp × Bool,
        clearSessionRoute credsExist clientExists outcome = JsResult.okVal resp
        ∧ resp.1.success = true ∧ resp.2 = false) := by
  constructor
  · have hdel1 := getA_delA_self st.whatsappClients sender
    have hdel2 := getA_delA_self st.clientStatus sender
    have hd : ∃ logs, destroyNonReadyClient outcome = JsResult.okVal logs := by
      cases outcome with
      | none => exact ⟨[], rfl⟩
      | some m =>
        cases hte : teardownErrorExpected m with
        | true =>
          refine ⟨["Client target already closed (expected), continuing..."], ?_⟩
          simp [destroyNonReadyClient, tryCatchJ, destroyCall, hte]
        | false =>
          refine ⟨["Error disconnecting client: " ++ m], ?_⟩
          simp [destroyNonReadyClient, tryCatchJ, destroyCall, hte]
    obtain ⟨logs, hlogs⟩ := hd
    refine ⟨{ st with whatsappClients := delA st.whatsappClients sender,
                      clientStatus := delA st.clientStatus sender },
            logs, ?_, hdel1, hdel2⟩
    simp [teardownNonReady, hlogs]
  · cases credsExist with
    | false => exact ⟨(⟨200, true⟩, false), rfl, rfl, rfl⟩
    | true =>
      cases clientExists with
      | false => exact ⟨(⟨200, true⟩, false), rfl, rfl, rfl⟩
      | true =>
        cases outcome with
        | none => exact ⟨(⟨200, true⟩, false), rfl, rfl, rfl⟩
        | some m =>
          refine ⟨(⟨200, true⟩, false), ?_, rfl, rfl⟩
          simp [clearSessionRoute, tryCatchJ, destroyCall]

end WeddingInvite
